import Mathlib

/-!
Verification of the CZDT ISS ingest-job pipeline against its specification.

The definitions below are shallow embeddings of the Python sources:
status classification and polling loops (`pipeline_generic.wait_for_completion`,
`catalog_job.wait_for_parent_completion`), the Zarr-to-COG fan-out stage
(`pipeline_generic.convert_zarr_to_cog`), step selection
(`localized_pipeline.get_enabled_steps`, `ConfigUtils.detect_input_type`),
process exit codes, S3 path parsing (`AWSUtils.parse_s3_path`), output
resolution (`MaapUtils.get_dps_output`), job-id recovery
(`MaapUtils.get_job_id`), and HTTP-to-S3 URI conversion
(`AWSUtils.convert_s3_http_to_s3_uri`).

Python string operations are modelled at the character level (on `String`
wrapping `List Char`, or directly on `List Char` where the source splits
paths), so that every definition evaluates by kernel reduction.
-/

namespace CZDT

/-- Python `str.lower()` (ASCII-relevant part), character by character. -/
def pyLower (s : String) : String := ⟨s.data.map Char.toLower⟩

/-- Python `str.endswith(sfx)`. -/
def pyEndsWith (s sfx : String) : Bool := sfx.data.isSuffixOf s.data

/-- Python `str.split(',')` on the underlying characters: splits at every
comma and keeps empty parts. -/
def splitCommaAux : List Char → List (List Char)
  | [] => [[]]
  | c :: cs =>
    if c = ',' then [] :: splitCommaAux cs
    else match splitCommaAux cs with
      | [] => [[c]]
      | p :: ps => (c :: p) :: ps

/-- Python `str.split(',')`. -/
def pySplitComma (s : String) : List String := (splitCommaAux s.data).map (fun l => ⟨l⟩)

/-- Python `str.strip()`: removes leading and trailing whitespace. -/
def pyStrip (s : String) : String :=
  ⟨((s.data.dropWhile Char.isWhitespace).reverse.dropWhile Char.isWhitespace).reverse⟩

/-! ## Completion pollers

`pipeline_generic.wait_for_completion` (the same body appears in
`pipeline_netcdf.py`):

    @backoff.on_exception(backoff.expo, Exception, max_value=64, max_time=172800)
    async def wait_for_completion(job):
        await asyncio.to_thread(job.retrieve_status)
        if job.status.lower() in ["deleted", "accepted", "running"]:
            raise RuntimeError
        return job

One refresh either raises `RuntimeError` (caught and retried by the backoff
decorator) or returns the job to the caller. -/

inductive GenericPollResult where
  | retry     -- raise RuntimeError, caught by the backoff decorator
  | returnJob -- the function returns the job to its caller
  deriving DecidableEq, Repr

def wait_for_completion_classify (status : String) : GenericPollResult :=
  if pyLower status ∈ ["deleted", "accepted", "running"] then .retry
  else .returnJob

/-- One refresh in `catalog_job.wait_for_parent_completion`: raises
`ValueError` on a failure terminal, raises `RuntimeError` on a non-terminal
or unknown status, and returns the parent job on status `"successful"`.
Both exception types are subclasses of `Exception` and hence are retried by
the surrounding `backoff.on_exception(backoff.expo, Exception, ...)`
decorator. -/
inductive CatalogPollResult where
  | raiseFailure -- raise ValueError (job failed / deleted / revoked)
  | retry        -- raise RuntimeError (still running, queued, or unknown)
  | success      -- return the parent job
  deriving DecidableEq, Repr

def wait_for_parent_completion_classify (status : String) : CatalogPollResult :=
  let s := pyLower status
  if s ∈ ["failed", "deleted", "revoked"] then .raiseFailure
  else if s ∈ ["accepted", "running", "queued"] then .retry
  else if s = "successful" then .success
  else .retry

/-- The polling loop that `backoff.on_exception(..., Exception, ...)` wraps
around `wait_for_completion`: every raised exception is retried, so the loop
ends only when the wrapped call returns the job, or when the status trace
(one entry per poll, standing in for the time budget) is exhausted.
Returns `true` iff the job was returned to the caller. -/
def generic_wait_loop : List String → Bool
  | [] => false
  | s :: rest =>
    match wait_for_completion_classify s with
    | .returnJob => true
    | .retry => generic_wait_loop rest

/-- The polling loop that `backoff.on_exception(..., Exception, ...)` wraps
around `wait_for_parent_completion`: since `ValueError` is itself an
`Exception`, the decorator retries failure terminals as well; when the trace
is exhausted (the time budget runs out) the last raised outcome is what the
caller observes. -/
def catalog_wait_loop : List String → CatalogPollResult → CatalogPollResult
  | [], last => last
  | s :: rest, _ =>
    match wait_for_parent_completion_classify s with
    | .success => .success
    | r => catalog_wait_loop rest r

/-- Exactly one of three alternatives holds. -/
def ExactlyOne (a b c : Prop) : Prop :=
  (a ∧ ¬b ∧ ¬c) ∨ (¬a ∧ b ∧ ¬c) ∨ (¬a ∧ ¬b ∧ c)

/-! ## Exponential backoff

Both pollers are wrapped in `backoff.on_exception(backoff.expo, Exception,
max_value=64, max_time=172800)` (`catalog_job.main` re-wraps with
`max_value=args.max_backoff`, default 64, and `max_time=args.max_wait_time`,
default 172800). The `backoff.expo` wait generator produces `2 ** n` seconds
for the n-th retry (n = 0, 1, 2, ...), clamped to `max_value`. No `jitter`
argument is passed, so the library default `jitter=full_jitter` applies: the
sleep actually performed before the (n+1)-th retry is a uniform random draw
from `[0, min(2 ** n, max_value)]`, not the generator value itself. The
random draws are modelled by an oracle `draws : Nat → Nat` (the n-th draw),
clamped to the generator value, so that ranging over all oracles ranges over
all possible random outcomes. -/

/-- The wait generated by `backoff.expo` with `max_value = 64` (the value
configured at every call site) for the n-th retry: the envelope the jittered
sleep is drawn from. -/
def backoff_expo_wait (n : Nat) : Nat := min (2 ^ n) 64

/-- `backoff.full_jitter`, the decorator's default: the actual sleep is
`random.uniform(0, w)`; an arbitrary draw clamped to the generator value
`w`. -/
def full_jitter (draw w : Nat) : Nat := min draw w

/-- The sleeps performed by the backoff-wrapped `wait_for_completion` when
successive polls observe the given statuses, starting at retry count `n`,
with the n-th jitter draw given by `draws n`. A non-terminal classification
sleeps `full_jitter (draws n) (backoff_expo_wait n)` and polls again; a
terminal one returns immediately. The `Bool` records whether the job was
returned within the trace. -/
def poll_sleeps (draws : Nat → Nat) : List String → Nat → List Nat × Bool
  | [], _ => ([], false)
  | s :: rest, n =>
    match wait_for_completion_classify s with
    | .returnJob => ([], true)
    | .retry =>
      let r := poll_sleeps draws rest (n + 1)
      (full_jitter (draws n) (backoff_expo_wait n) :: r.1, r.2)

/-! ## Zarr-to-COG fan-out stage (`pipeline_generic.convert_zarr_to_cog`)

A submitted DPS job is represented by its id string; Python's
`if job.id:` truthiness test is `id ≠ ""`. -/

structure DPSJobHandle where
  id : String
  deriving DecidableEq, Repr

/-- The submission loop of `convert_zarr_to_cog`: one `maap.submitJob` call
per Zarr file; a job with a truthy id is appended to `jobs`, a rejected one
is logged to stderr and dropped. -/
def submit_cog_jobs (submitJob : String → DPSJobHandle) : List String → List DPSJobHandle
  | [] => []
  | f :: rest =>
    let job := submitJob f
    if job.id ≠ "" then job :: submit_cog_jobs submitJob rest
    else submit_cog_jobs submitJob rest

inductive CogStageError where
  | noZarrFiles      -- "No Zarr files found for COG conversion"
  | noJobsSubmitted  -- "No Zarr to COG jobs were successfully submitted"
  deriving DecidableEq, Repr

/-- `convert_zarr_to_cog` after the Zarr file list has been determined:
raises if the list is empty, submits one job per file, raises if no job was
accepted, and otherwise awaits every job in `jobs` (the returned list is
exactly the awaited set). -/
def convert_zarr_to_cog (submitJob : String → DPSJobHandle)
    (zarrFiles : List String) : Except CogStageError (List DPSJobHandle) :=
  if zarrFiles.isEmpty then .error .noZarrFiles
  else
    let jobs := submit_cog_jobs submitJob zarrFiles
    if jobs.isEmpty then .error .noJobsSubmitted
    else .ok jobs

/-- Whether an `Except` result is a success. -/
def exceptOk {ε α : Type} : Except ε α → Bool
  | .ok _ => true
  | .error _ => false

/-! ## Input-type detection and step selection
(`ConfigUtils.detect_input_type`, `localized_pipeline.get_enabled_steps`) -/

/-- Python truthiness of an optional string argument. -/
def truthy : Option String → Bool
  | none => false
  | some s => s ≠ ""

/-- `ConfigUtils.detect_input_type`. `Except` models the `ValueError` raised
for an unsupported S3 suffix; the final `.ok none` is Python's implicit
`None` return when neither input is given. -/
def detect_input_type (granule_id input_s3 : Option String) : Except String (Option String) :=
  if truthy granule_id ∧ (granule_id.getD "").length > 0 ∧ granule_id.getD "" ≠ "none" then
    .ok (some "daac")
  else if truthy input_s3 then
    let url := input_s3.getD ""
    if pyEndsWith url ".nc" ∨ pyEndsWith url ".nc4" then .ok (some "s3_netcdf")
    else if pyEndsWith url ".zarr" ∨ pyEndsWith url ".zarr/" then .ok (some "s3_zarr")
    else if pyEndsWith url ".gpkg" then .ok (some "s3_gpkg")
    else .error ("Unsupported file type in S3 URL: " ++ url)
  else .ok none

def valid_steps : List String := ["stage", "netcdf2zarr", "concat", "zarr2cog", "catalog"]

/-- `localized_pipeline.get_enabled_steps`. `Except` models the `ValueError`
raised for invalid step names; `.ok none` is Python's implicit `None` return
when `steps_arg = 'all'` and the input type matches no branch. -/
def get_enabled_steps (steps_arg : String) (input_type : String) :
    Except String (Option (List String)) :=
  if steps_arg = "all" then
    if input_type = "daac" then .ok (some ["stage", "netcdf2zarr", "concat", "zarr2cog", "catalog"])
    else if input_type = "s3_netcdf" then .ok (some ["netcdf2zarr", "concat", "zarr2cog", "catalog"])
    else if input_type = "s3_zarr" then .ok (some ["zarr2cog", "catalog"])
    else if input_type = "s3_gpkg" then .ok (some ["catalog"])
    else .ok none
  else
    let steps := (pySplitComma steps_arg).map pyStrip
    let invalid := steps.filter (fun s => ¬ (s ∈ valid_steps))
    if ¬ invalid.isEmpty then .error "Invalid steps"
    else .ok (some steps)

/-- The guard in `localized_pipeline.main` for the s3_netcdf flow:
`if 'concat' in enabled_steps and args.enable_concat and current_output:`. -/
def concat_step_runs (enabled_steps : List String) (enable_concat : Bool)
    (has_current_output : Bool) : Bool :=
  enabled_steps.contains "concat" && enable_concat && has_current_output

/-! ## Process exit codes

Each entry point maps the exception caught in its `main` to `sys.exit(code)`.
The constructor names follow the handlers in the source; the paired strings
are the `TERMINATED: <category>` log texts. -/

def s3SchemeChars : List Char := ['s', '3', ':', '/', '/']
def hostDashChars : List Char := ['s', '3', '-']
def hostDotChars : List Char := ['s', '3', '.']

/-- Python `s.split('/', 1)` when `'/' in s`: the parts before and after the
first slash; `none` when the string contains no slash. -/
def splitFirstSlash : List Char → Option (List Char × List Char)
  | [] => none
  | c :: cs =>
    if c = '/' then some ([], cs)
    else (splitFirstSlash cs).map (fun p => (c :: p.1, p.2))

/-- `AWSUtils.parse_s3_path` (the same function also appears in
`pipeline_generic.py`): requires the `s3://` scheme, then treats the first
segment as a hostname exactly when it begins with `s3-` or `s3.`, and splits
the remainder into bucket and key at the first slash. `Except` models the
`ValueError` raises. -/
def parse_s3_path (s3_path : List Char) : Except Unit (List Char × List Char) :=
  if s3SchemeChars.isPrefixOf s3_path then
    let p := s3_path.drop 5
    if hostDashChars.isPrefixOf p ∨ hostDotChars.isPrefixOf p then
      match splitFirstSlash p with
      | none => .error ()   -- ValueError: no bucket/key after the hostname
      | some (_, remaining) =>
        match splitFirstSlash remaining with
        | none => .ok (remaining, [])
        | some (bucket, key) => .ok (bucket, key)
    else
      match splitFirstSlash p with
      | none => .ok (p, [])
      | some (bucket, key) => .ok (bucket, key)
  else .error ()  -- ValueError: not a valid s3 path

/-- The f-string `f"s3://{bucket}/{key}"`. -/
def s3UriChars (bucket key : List Char) : List Char :=
  s3SchemeChars ++ bucket ++ '/' :: key

/-! ## Output resolver (`MaapUtils.get_dps_output`) -/

/-- `os.path.dirname`: everything before the last slash; empty when the key
contains no slash. -/
def dirnameChars (key : List Char) : List Char :=
  match splitFirstSlash key.reverse with
  | none => []
  | some (_, rest) => rest.reverse

/-- Adding an element to a Python `set`, rendered as a duplicate-free list. -/
def set_insert (out : List (List Char)) (x : List Char) : List (List Char) :=
  if x ∈ out then out else out ++ [x]

/-- The body of the inner loop of `get_dps_output` for one listed object
key: filter by suffix (on the key, or on its parent folder in
`prefixes_only` mode) and add the rendered `s3://` path to the set. -/
def dps_output_step (bucket ext : List Char) (prefixesOnly : Bool)
    (out : List (List Char)) (key : List Char) : List (List Char) :=
  if prefixesOnly then
    let folder := dirnameChars key
    if ext.isSuffixOf folder then set_insert out (s3UriChars bucket folder) else out
  else
    if ext.isSuffixOf key then set_insert out (s3UriChars bucket key) else out

/-- The outer loop of `get_dps_output` over the per-job primary result
locations; a `parse_s3_path` failure propagates as the `ValueError` it is. -/
def get_dps_output_go (listObjs : List Char → List Char → List (List Char))
    (ext : List Char) (prefixesOnly : Bool) :
    List (Option (List Char)) → List (List Char) → Except Unit (List (List Char))
  | [], out => .ok out
  | none :: rest, out => get_dps_output_go listObjs ext prefixesOnly rest out
  | some jobOutput :: rest, out =>
    match parse_s3_path jobOutput with
    | .error e => .error e
    | .ok (bucket, path) =>
      get_dps_output_go listObjs ext prefixesOnly rest
        ((listObjs bucket path).foldl (dps_output_step bucket ext prefixesOnly) out)

/-- `MaapUtils.get_dps_output` (the same function also appears in
`pipeline_generic.py`): each job contributes its first result path starting
with `"s3"`; `listObjs bucket pfx` stands for the storage collaborator's
`s3.Bucket(bucket).objects.filter(Prefix=pfx)` key listing. -/
def get_dps_output (listObjs : List Char → List Char → List (List Char))
    (jobResults : List (List (List Char))) (ext : List Char) (prefixesOnly : Bool) :
    Except Unit (List (List Char)) :=
  let job_outputs := jobResults.map (fun results => results.find? (fun p => ['s', '3'].isPrefixOf p))
  get_dps_output_go listObjs ext prefixesOnly job_outputs []

/-- The returned list of a successful `get_dps_output` call is
duplicate-free (trivially holds of a propagated error). -/
def okNodup (r : Except Unit (List (List Char))) : Prop :=
  match r with
  | .ok l => l.Nodup
  | .error _ => True

/-! ## Job-id recovery (`MaapUtils.get_job_id`, `pipeline_generic.get_job_id`)

The parsed `_job.json` is `none` when the file does not exist; missing JSON
keys are `none` fields (Python's `dict.get` with a default). -/

structure JobPayloadJson where
  payload_task_id : Option String

structure JobInfoJson where
  job_payload : Option JobPayloadJson

structure JobFileJson where
  job_info : Option JobInfoJson

/-- `MaapUtils.get_job_id`: returns the empty string when `_job.json` does
not exist; otherwise `json.load(fr).get("job_info", {}).get("job_payload",
{}).get("payload_task_id", "")`. -/
def MaapUtils_get_job_id (jobFile : Option JobFileJson) : String :=
  match jobFile with
  | none => ""
  | some j => ((j.job_info.bind JobInfoJson.job_payload).bind JobPayloadJson.payload_task_id).getD ""

structure JobFileJsonGeneric where
  job_id : Option String

/-- `pipeline_generic.get_job_id`: returns the empty string when `_job.json`
does not exist; otherwise `job_info.get("job_id", "")`. -/
def pipeline_generic_get_job_id (jobFile : Option JobFileJsonGeneric) : String :=
  match jobFile with
  | none => ""
  | some j => j.job_id.getD ""

/-! ## HTTP(S)-to-S3 URI conversion (`AWSUtils.convert_s3_http_to_s3_uri`)

The two `re.match` patterns are
`https?://s3\.amazonaws\.com/([^/]+)/(.*)` (path style) and
`https?://([^.]+)\.s3\.amazonaws\.com/(.*)` (virtual-hosted style).
`re.match` anchors at the start only, `[^/]+` / `[^.]+` are maximal nonempty
runs excluding the named character, and `.*` is the maximal run of
non-newline characters. -/

/-- The regex piece `https?://`: greedy `s?`, so `https://` is tried first. -/
def stripHttpScheme (s : List Char) : Option (List Char) :=
  if ['h', 't', 't', 'p', 's', ':', '/', '/'].isPrefixOf s then some (s.drop 8)
  else if ['h', 't', 't', 'p', ':', '/', '/'].isPrefixOf s then some (s.drop 7)
  else none

/-- `re.match(r"https?://s3\.amazonaws\.com/([^/]+)/(.*)", link)`, returning
the two captured groups. -/
def match_path_style (link : List Char) : Option (List Char × List Char) :=
  match stripHttpScheme link with
  | none => none
  | some r =>
    if ("s3.amazonaws.com/".data).isPrefixOf r then
      let r2 := r.drop 17
      let bucket := r2.takeWhile (· ≠ '/')
      match r2.dropWhile (· ≠ '/') with
      | '/' :: k => if bucket.isEmpty then none else some (bucket, k.takeWhile (· ≠ '\n'))
      | _ => none
    else none

/-- `re.match(r"https?://([^.]+)\.s3\.amazonaws\.com/(.*)", link)`, returning
the two captured groups. -/
def match_virtual_hosted_style (link : List Char) : Option (List Char × List Char) :=
  match stripHttpScheme link with
  | none => none
  | some r =>
    let bucket := r.takeWhile (· ≠ '.')
    if bucket.isEmpty then none
    else if (".s3.amazonaws.com/".data).isPrefixOf (r.dropWhile (· ≠ '.')) then
      some (bucket, ((r.dropWhile (· ≠ '.')).drop 18).takeWhile (· ≠ '\n'))
    else none

/-- `AWSUtils.convert_s3_http_to_s3_uri`: tries the path-style pattern, then
the virtual-hosted-style pattern, and returns `None` when neither matches. -/
def convert_s3_http_to_s3_uri (link : List Char) : Option (List Char) :=
  match match_path_style link with
  | some (bucket, key) => some (s3UriChars bucket key)
  | none =>
    match match_virtual_hosted_style link with
    | some (bucket, key) => some (s3UriChars bucket key)
    | none => none

/-! ## Theorems -/

lemma catalog_wait_loop_const_failed (n : Nat) :
    ∀ last, catalog_wait_loop (List.replicate (n + 1) "Failed") last = .raiseFailure := by
  induction n with
  | zero => intro last; rfl
  | succ m ih =>
    intro last
    show catalog_wait_loop ("Failed" :: List.replicate (m + 1) "Failed") last = _
    have h : wait_for_parent_completion_classify "Failed" = .raiseFailure := by decide
    rw [catalog_wait_loop, h]
    exact ih _

/-- Claim C1, as stated, is false on `pipeline_generic.wait_for_completion`:
a refreshed status of Failed makes the poller return the job to its caller
as if it had completed (no failure signal), and the whole backoff loop
terminates successfully on that first poll. -/
theorem C1_counterexample :
    wait_for_completion_classify "Failed" = GenericPollResult.returnJob ∧
    generic_wait_loop ["Failed"] = true := by
  decide

/-- Claim C1 (amended): `catalog_job.wait_for_parent_completion` raises
`ValueError` for each failure-terminal status (Failed, Deleted, Revoked),
but its backoff decorator retries every `Exception`, so the failure is
signalled only once the retry budget is exhausted; and
`pipeline_generic.wait_for_completion` classifies Deleted as non-terminal
(backs off) while Failed and Revoked make it return the job with no failure
signal — on a Failed status its polling loop ends as a success. -/
theorem C1_amended :
    (wait_for_parent_completion_classify "Failed" = .raiseFailure ∧
      wait_for_parent_completion_classify "Deleted" = .raiseFailure ∧
      wait_for_parent_completion_classify "Revoked" = .raiseFailure) ∧
    (wait_for_completion_classify "Failed" = .returnJob ∧
      wait_for_completion_classify "Revoked" = .returnJob ∧
      wait_for_completion_classify "Deleted" = .retry) ∧
    (∀ rest, generic_wait_loop ("Failed" :: rest) = true) ∧
    (∀ n, catalog_wait_loop (List.replicate (n + 1) "Failed") .retry = .raiseFailure) := by
  refine ⟨by decide, by decide, ?_, fun n => catalog_wait_loop_const_failed n _⟩
  intro rest
  have h : wait_for_completion_classify "Failed" = .returnJob := by decide
  rw [generic_wait_loop, h]

/-- Claim C2, as stated, is false on `pipeline_generic.wait_for_completion`:
an unrecognized status value makes that poller return the job (terminate
polling) rather than continue polling. -/
theorem C2_counterexample :
    wait_for_completion_classify "Bogus" = GenericPollResult.returnJob ∧
    GenericPollResult.returnJob ≠ GenericPollResult.retry := by
  decide

/-- Claim C2 (amended): each classification is total and selects exactly one
outcome; `catalog_job.wait_for_parent_completion` maps every status outside
its recognized set (failed, deleted, revoked, accepted, running, queued,
successful, case-insensitively) to continue-polling; but
`pipeline_generic.wait_for_completion` treats only {deleted, accepted,
running} as non-terminal and returns the job for every other status, so
unrecognized values terminate that poller. -/
theorem C2_amended :
    (∀ s, ExactlyOne (wait_for_parent_completion_classify s = .raiseFailure)
      (wait_for_parent_completion_classify s = .retry)
      (wait_for_parent_completion_classify s = .success)) ∧
    (∀ s, pyLower s ∉ (["failed", "deleted", "revoked", "accepted", "running",
        "queued", "successful"] : List String) →
      wait_for_parent_completion_classify s = .retry) ∧
    (∀ s, pyLower s ∉ (["deleted", "accepted", "running"] : List String) →
      wait_for_completion_classify s = .returnJob) ∧
    (∀ s, wait_for_completion_classify s = .retry ∨
      wait_for_completion_classify s = .returnJob) := by
  refine ⟨?_, ?_, ?_, ?_⟩
  · intro s
    rcases h : wait_for_parent_completion_classify s with _ | _ | _ <;>
      simp [ExactlyOne, h]
  · intro s h
    simp only [List.mem_cons, List.not_mem_nil, or_false, not_or] at h
    obtain ⟨h1, h2, h3, h4, h5, h6, h7⟩ := h
    simp [wait_for_parent_completion_classify, List.mem_cons,
      h1, h2, h3, h4, h5, h6, h7]
  · intro s h
    simp only [List.mem_cons, List.not_mem_nil, or_false, not_or] at h
    obtain ⟨h1, h2, h3⟩ := h
    simp [wait_for_completion_classify, List.mem_cons, h1, h2, h3]
  · intro s
    rcases h : wait_for_completion_classify s with _ | _
    · exact Or.inl rfl
    · exact Or.inr rfl

/-- Witness for C2 at the concrete unrecognized status "Mystery". -/
theorem C2_witness :
    wait_for_parent_completion_classify "Mystery" = CatalogPollResult.retry ∧
    wait_for_completion_classify "Mystery" = GenericPollResult.returnJob :=
  ⟨C2_amended.2.1 "Mystery" (by decide), C2_amended.2.2.1 "Mystery" (by decide)⟩

lemma submit_cog_jobs_eq_filter (submitJob : String → DPSJobHandle) :
    ∀ zarrFiles, submit_cog_jobs submitJob zarrFiles =
      (zarrFiles.map submitJob).filter (fun j => j.id != "") := by
  intro zarrFiles
  induction zarrFiles with
  | nil => rfl
  | cons f rest ih =>
    by_cases hid : (submitJob f).id = ""
    · simp [submit_cog_jobs, List.filter_cons, hid, ih]
    · simp [submit_cog_jobs, List.filter_cons, hid, ih]

/-- Claim C3: in `convert_zarr_to_cog`, submissions returning no job id are
excluded from the awaited set, the awaited set is exactly the list of
successfully submitted jobs, and the stage raises precisely when that set
is empty (either because the Zarr list was empty or because every
submission was rejected). -/
theorem C3_fanout_partial_submission (submitJob : String → DPSJobHandle)
    (zarrFiles : List String) :
    (exceptOk (convert_zarr_to_cog submitJob zarrFiles) = false ↔
      (zarrFiles.map submitJob).filter (fun j => j.id != "") = []) ∧
    (convert_zarr_to_cog submitJob zarrFiles =
        .ok ((zarrFiles.map submitJob).filter (fun j => j.id != "")) ∨
      exceptOk (convert_zarr_to_cog submitJob zarrFiles) = false) := by
  unfold convert_zarr_to_cog
  by_cases hz : zarrFiles.isEmpty
  · have hnil : zarrFiles = [] := List.isEmpty_iff.mp hz
    subst hnil
    exact ⟨by simp [exceptOk], Or.inr (by simp [exceptOk])⟩
  · rw [if_neg hz, submit_cog_jobs_eq_filter]
    by_cases hj : ((zarrFiles.map submitJob).filter (fun j => j.id != "")).isEmpty
    · rw [if_pos hj]
      exact ⟨by simp [exceptOk, List.isEmpty_iff.mp hj], Or.inr (by simp [exceptOk])⟩
    · rw [if_neg hj]
      refine ⟨⟨fun h => absurd h (by simp [exceptOk]), fun h => ?_⟩, Or.inl rfl⟩
      exact absurd (List.isEmpty_iff.mpr h) hj

lemma backoff_expo_wait_mono (n : Nat) : backoff_expo_wait n ≤ backoff_expo_wait (n + 1) :=
  min_le_min (Nat.pow_le_pow_right (by norm_num) (Nat.le_succ n)) (le_refl 64)

lemma poll_sleeps_bounded_by_envelope (draws : Nat → Nat) (sts : List String) :
    ∀ n, List.Forall₂ (· ≤ ·) (poll_sleeps draws sts n).1
      ((List.range (poll_sleeps draws sts n).1.length).map (fun i => backoff_expo_wait (n + i))) := by
  induction sts with
  | nil => intro n; exact List.Forall₂.nil
  | cons s rest ih =>
    intro n
    rcases h : wait_for_completion_classify s with _ | _
    · rw [poll_sleeps, h]
      show List.Forall₂ (· ≤ ·)
        (full_jitter (draws n) (backoff_expo_wait n) :: (poll_sleeps draws rest (n + 1)).1)
        ((List.range (full_jitter (draws n) (backoff_expo_wait n) ::
          (poll_sleeps draws rest (n + 1)).1).length).map (fun i => backoff_expo_wait (n + i)))
      rw [List.length_cons, List.range_succ_eq_map, List.map_cons, List.map_map]
      refine List.Forall₂.cons ?_ ?_
      · show full_jitter (draws n) (backoff_expo_wait n) ≤ backoff_expo_wait (n + 0)
        rw [Nat.add_zero]
        exact Nat.min_le_right _ _
      · have hmap : (List.range (poll_sleeps draws rest (n + 1)).1.length).map
            ((fun i => backoff_expo_wait (n + i)) ∘ Nat.succ) =
            (List.range (poll_sleeps draws rest (n + 1)).1.length).map
              (fun i => backoff_expo_wait (n + 1 + i)) := by
          refine List.map_congr_left fun a _ => ?_
          show backoff_expo_wait (n + (a + 1)) = backoff_expo_wait (n + 1 + a)
          congr 1
          omega
        rw [hmap]
        exact ih (n + 1)
    · rw [poll_sleeps, h]; exact List.Forall₂.nil

lemma poll_sleeps_le_cap (draws : Nat → Nat) (sts : List String) :
    ∀ n, (poll_sleeps draws sts n).1.all (fun w => w ≤ 64) = true := by
  induction sts with
  | nil => intro n; rfl
  | cons s rest ih =>
    intro n
    rcases h : wait_for_completion_classify s with _ | _
    · rw [poll_sleeps, h]
      simp only [List.all_cons, Bool.and_eq_true]
      refine ⟨?_, ih (n + 1)⟩
      have h1 : full_jitter (draws n) (backoff_expo_wait n) ≤ backoff_expo_wait n :=
        Nat.min_le_right _ _
      have h2 : backoff_expo_wait n ≤ 64 := Nat.min_le_right _ _
      simpa using le_trans h1 h2
    · rw [poll_sleeps, h]; rfl

/-- Claim C4, as stated, is false: the backoff decorator is used with its
default `jitter=full_jitter`, so each sleep is a uniform draw from the expo
interval, not the expo value. The draw oracle taking 1 then 0 is a possible
random outcome under which the Accepted, Running, Running, Succeeded trace
sleeps 1, 0, 0 — not the claimed 1, 2, 4, and not monotonically
non-decreasing. -/
theorem C4_counterexample :
    poll_sleeps (fun n => if n = 0 then 1 else 0)
      ["Accepted", "Running", "Running", "Succeeded"] 0 = ([1, 0, 0], true) ∧
    ¬ List.Chain' (· ≤ ·) ([1, 0, 0] : List Nat) ∧
    (([1, 0, 0] : List Nat) ≠ [1, 2, 4]) := by
  refine ⟨by decide, ?_, by decide⟩
  intro h
  rcases h with _ | ⟨hle, _⟩
  omega

/-- Claim C4 (amended): each sleep of the backoff-wrapped poller is a
full-jittered uniform draw from `[0, min(2 ^ n, 64)]`, so for every possible
draw sequence each performed sleep is dominated by the corresponding expo
envelope value `min(2 ^ n, 64)` and never exceeds the 64-second cap; the
envelope itself is seeded at 1 and monotonically non-decreasing up to the
cap; and the Accepted, Running, Running, Succeeded trace sleeps exactly
1, 2, 4 then returns on the 4th poll precisely for maximal draws (jitter at
the top of each interval) — the performed sleeps need not be monotone. -/
theorem C4_amended :
    (∀ draws sts n, (poll_sleeps draws sts n).1.all (fun w => w ≤ 64) = true) ∧
    (∀ draws sts n, List.Forall₂ (· ≤ ·) (poll_sleeps draws sts n).1
      ((List.range (poll_sleeps draws sts n).1.length).map
        (fun i => backoff_expo_wait (n + i)))) ∧
    backoff_expo_wait 0 = 1 ∧
    (∀ n, backoff_expo_wait n ≤ backoff_expo_wait (n + 1)) ∧
    (∀ n, backoff_expo_wait n ≤ 64) ∧
    poll_sleeps (fun _ => 64) ["Accepted", "Running", "Running", "Succeeded"] 0 =
      ([1, 2, 4], true) := by
  refine ⟨fun draws sts n => poll_sleeps_le_cap draws sts n,
    fun draws sts n => poll_sleeps_bounded_by_envelope draws sts n,
    rfl, fun n => backoff_expo_wait_mono n, fun n => Nat.min_le_right _ _, by decide⟩

/-- Claim C5, as stated, is false: for steps `'all'` and input type
`s3_netcdf`, `get_enabled_steps` returns a list that contains `'concat'`,
not the three-element list the claim names. -/
theorem C5_counterexample :
    get_enabled_steps "all" "s3_netcdf" =
      .ok (some ["netcdf2zarr", "concat", "zarr2cog", "catalog"]) ∧
    (["netcdf2zarr", "concat", "zarr2cog", "catalog"] : List String) ≠
      ["netcdf2zarr", "zarr2cog", "catalog"] := by
  constructor
  · rfl
  · decide

/-- Claim C5 (amended): an `--input-s3` URL ending in `.nc4` is detected as
`s3_netcdf`; `get_enabled_steps('all', 's3_netcdf')` returns
`[netcdf2zarr, concat, zarr2cog, catalog]` (with `concat` in the list); the
concat stage is nevertheless executed only when `--enable-concat` is set,
so concatenation is excluded by default. -/
theorem C5_amended :
    detect_input_type none (some "s3://bucket/data.nc4") = .ok (some "s3_netcdf") ∧
    get_enabled_steps "all" "s3_netcdf" =
      .ok (some ["netcdf2zarr", "concat", "zarr2cog", "catalog"]) ∧
    concat_step_runs ["netcdf2zarr", "concat", "zarr2cog", "catalog"] false true = false ∧
    concat_step_runs ["netcdf2zarr", "concat", "zarr2cog", "catalog"] true true = true := by
  refine ⟨?_, rfl, rfl, rfl⟩
  rfl

lemma splitFirstSlash_append (b k : List Char) (hb : '/' ∉ b) :
    splitFirstSlash (b ++ '/' :: k) = some (b, k) := by
  induction b with
  | nil => rfl
  | cons c cs ih =>
    have hc : c ≠ '/' := fun h => hb (h ▸ List.mem_cons_self c cs)
    have hcs : '/' ∉ cs := fun h => hb (List.mem_cons_of_mem c h)
    rw [List.cons_append, splitFirstSlash, if_neg hc, ih hcs]
    rfl

lemma isPrefixOf_append_cons (pfx : List Char) (c : Char) (hc : c ∉ pfx) :
    ∀ b k : List Char, pfx.isPrefixOf (b ++ c :: k) = true → pfx.isPrefixOf b = true := by
  induction pfx with
  | nil => intro b k _; cases b <;> rfl
  | cons p ps ih =>
    intro b k h
    have hcp : c ≠ p := fun hep => hc (hep ▸ List.mem_cons_self p ps)
    have hcps : c ∉ ps := fun hm => hc (List.mem_cons_of_mem p hm)
    cases b with
    | nil =>
      rw [List.nil_append, List.isPrefixOf, Bool.and_eq_true, beq_iff_eq] at h
      exact absurd h.1.symm hcp
    | cons x xs =>
      rw [List.cons_append, List.isPrefixOf, Bool.and_eq_true] at h
      rw [List.isPrefixOf, Bool.and_eq_true]
      exact ⟨h.1, ih hcps xs k h.2⟩

lemma isPrefixOf_append_right (pfx l1 l2 : List Char)
    (h : pfx.isPrefixOf l1 = true) : pfx.isPrefixOf (l1 ++ l2) = true :=
  List.isPrefixOf_iff_prefix.mpr
    ((List.isPrefixOf_iff_prefix.mp h).trans (List.prefix_append l1 l2))

/-- Claim C7: `parse_s3_path` round-trips both the canonical form
`s3://bucket/key` (for buckets that are not recognized as hostnames, i.e.
that do not begin with `s3-` or `s3.`) and the hostname-prefixed form
`s3://host/bucket/key` (recognized exactly when the segment after `s3://`
begins with `s3-` or `s3.`); keys may contain slashes. -/
theorem C7_parse_s3_path_roundtrip (bucket key host : List Char)
    (hb : '/' ∉ bucket)
    (hbdash : hostDashChars.isPrefixOf bucket = false)
    (hbdot : hostDotChars.isPrefixOf bucket = false)
    (hh : '/' ∉ host)
    (hhost : hostDashChars.isPrefixOf host = true ∨ hostDotChars.isPrefixOf host = true) :
    parse_s3_path (s3SchemeChars ++ bucket ++ ('/' :: key)) = .ok (bucket, key) ∧
    parse_s3_path (s3SchemeChars ++ host ++ ('/' :: (bucket ++ ('/' :: key)))) =
      .ok (bucket, key) := by
  constructor
  · rw [List.append_assoc, parse_s3_path,
      if_pos (isPrefixOf_append_right _ _ _ (by decide : s3SchemeChars.isPrefixOf s3SchemeChars = true)),
      show (5 : Nat) = s3SchemeChars.length from rfl, List.drop_left]
    have hd : hostDashChars.isPrefixOf (bucket ++ '/' :: key) = false := by
      cases hx : hostDashChars.isPrefixOf (bucket ++ '/' :: key) with
      | false => rfl
      | true =>
        have := isPrefixOf_append_cons hostDashChars '/' (by decide) bucket key hx
        rw [this] at hbdash
        exact absurd hbdash (by decide)
    have ho : hostDotChars.isPrefixOf (bucket ++ '/' :: key) = false := by
      cases hx : hostDotChars.isPrefixOf (bucket ++ '/' :: key) with
      | false => rfl
      | true =>
        have := isPrefixOf_append_cons hostDotChars '/' (by decide) bucket key hx
        rw [this] at hbdot
        exact absurd hbdot (by decide)
    rw [if_neg (by rw [hd, ho]; simp), splitFirstSlash_append bucket key hb]
  · rw [List.append_assoc, parse_s3_path,
      if_pos (isPrefixOf_append_right _ _ _ (by decide : s3SchemeChars.isPrefixOf s3SchemeChars = true)),
      show (5 : Nat) = s3SchemeChars.length from rfl, List.drop_left]
    have hpos : hostDashChars.isPrefixOf (host ++ '/' :: (bucket ++ '/' :: key)) = true ∨
        hostDotChars.isPrefixOf (host ++ '/' :: (bucket ++ '/' :: key)) = true := by
      rcases hhost with h | h
      · exact Or.inl (isPrefixOf_append_right _ _ _ h)
      · exact Or.inr (isPrefixOf_append_right _ _ _ h)
    rw [if_pos hpos]
    simp only [splitFirstSlash_append host _ hh, splitFirstSlash_append bucket key hb]

/-- Witness for C7 at the spec's two example paths. -/
theorem C7_witness :
    parse_s3_path ("s3://bucket/key/with/slashes".data) =
      .ok ("bucket".data, "key/with/slashes".data) ∧
    parse_s3_path ("s3://s3-us-west-2.amazonaws.com:80/bucket/key".data) =
      .ok ("bucket".data, "key".data) := by
  constructor
  · exact (C7_parse_s3_path_roundtrip "bucket".data "key/with/slashes".data
      "s3-h".data (by decide) (by decide) (by decide) (by decide) (Or.inl (by decide))).1
  · exact (C7_parse_s3_path_roundtrip "bucket".data "key".data
      "s3-us-west-2.amazonaws.com:80".data (by decide) (by decide) (by decide) (by decide)
      (Or.inl (by decide))).2

lemma set_insert_nodup (out : List (List Char)) (x : List Char) (h : out.Nodup) :
    (set_insert out x).Nodup := by
  unfold set_insert
  split
  · exact h
  · rename_i hx
    simp [List.nodup_append, h, hx]

lemma dps_output_step_nodup (bucket ext : List Char) (pOnly : Bool)
    (out : List (List Char)) (key : List Char) (h : out.Nodup) :
    (dps_output_step bucket ext pOnly out key).Nodup := by
  unfold dps_output_step
  dsimp only
  split
  · split
    · exact set_insert_nodup _ _ h
    · exact h
  · split
    · exact set_insert_nodup _ _ h
    · exact h

lemma foldl_dps_step_nodup (bucket ext : List Char) (pOnly : Bool) :
    ∀ (keys : List (List Char)) (out : List (List Char)), out.Nodup →
      (keys.foldl (dps_output_step bucket ext pOnly) out).Nodup := by
  intro keys
  induction keys with
  | nil => intro out h; exact h
  | cons k ks ih =>
    intro out h
    rw [List.foldl_cons]
    exact ih _ (dps_output_step_nodup bucket ext pOnly out k h)

lemma get_dps_output_go_nodup (listObjs : List Char → List Char → List (List Char))
    (ext : List Char) (pOnly : Bool) :
    ∀ (jobOutputs : List (Option (List Char))) (out : List (List Char)), out.Nodup →
      okNodup (get_dps_output_go listObjs ext pOnly jobOutputs out) := by
  intro jobOutputs
  induction jobOutputs with
  | nil => intro out h; exact h
  | cons jo rest ih =>
    intro out h
    cases jo with
    | none =>
      rw [get_dps_output_go]
      exact ih out h
    | some jobOutput =>
      rw [get_dps_output_go]
      cases hp : parse_s3_path jobOutput with
      | error e => simp only [hp]; trivial
      | ok bp =>
        obtain ⟨bucket, path⟩ := bp
        simp only [hp]
        exact ih _ (foldl_dps_step_nodup bucket ext pOnly _ out h)

/-- Claim C8: `get_dps_output` returns each matching storage path at most
once, for every extension filter, mode, job list and storage listing — in
particular when two jobs' result locations overlap in the keys they list. -/
theorem C8_get_dps_output_nodup (listObjs : List Char → List Char → List (List Char))
    (jobResults : List (List (List Char))) (ext : List Char) (prefixesOnly : Bool) :
    okNodup (get_dps_output listObjs jobResults ext prefixesOnly) := by
  unfold get_dps_output
  exact get_dps_output_go_nodup listObjs ext prefixesOnly _ [] List.nodup_nil

/-- Claim C9: both `get_job_id` variants return the empty string, rather
than raising, when the local job-descriptor file `_job.json` does not
exist (`none` is the missing-file case of the embedding). -/
theorem C9_get_job_id_missing_file :
    MaapUtils_get_job_id none = "" ∧ pipeline_generic_get_job_id none = "" :=
  ⟨rfl, rfl⟩

lemma match_path_style_bucket_ne_nil (link b k : List Char)
    (h : match_path_style link = some (b, k)) : b ≠ [] := by
  unfold match_path_style at h
  split at h
  · exact absurd h (by simp)
  · dsimp only at h
    split at h
    · split at h
      · split at h
        · exact absurd h (by simp)
        · rename_i he
          have hb := congrArg Prod.fst (Option.some.inj h)
          dsimp only at hb
          rw [← hb]
          intro hnil
          exact he (by rw [hnil]; rfl)
      · exact absurd h (by simp)
    · exact absurd h (by simp)

lemma match_virtual_bucket_ne_nil (link b k : List Char)
    (h : match_virtual_hosted_style link = some (b, k)) : b ≠ [] := by
  unfold match_virtual_hosted_style at h
  split at h
  · exact absurd h (by simp)
  · dsimp only at h
    split at h
    · exact absurd h (by simp)
    · rename_i he
      split at h
      · have hb := congrArg Prod.fst (Option.some.inj h)
        dsimp only at hb
        rw [← hb]
        intro hnil
        exact he (by rw [hnil]; rfl)
      · exact absurd h (by simp)

/-- Claim C10: `convert_s3_http_to_s3_uri` is total (the embedding returns
an `Option`, mirroring that no branch of the Python function can raise): it
returns `None` exactly when neither S3 HTTP(S) URL pattern matches, and on a
match it returns an `s3://bucket/key` URI with a nonempty bucket. -/
theorem C10_convert_s3_http_total (link : List Char) :
    (convert_s3_http_to_s3_uri link = none ↔
      match_path_style link = none ∧ match_virtual_hosted_style link = none) ∧
    (∀ uri, convert_s3_http_to_s3_uri link = some uri →
      ∃ bucket key, bucket ≠ [] ∧ uri = s3UriChars bucket key) := by
  constructor
  · unfold convert_s3_http_to_s3_uri
    cases hp : match_path_style link with
    | some bk =>
      obtain ⟨bb, kk⟩ := bk
      simp [hp]
    | none =>
      cases hv : match_virtual_hosted_style link with
      | some bk =>
        obtain ⟨bb, kk⟩ := bk
        simp [hp, hv]
      | none => simp [hp, hv]
  · intro uri h
    unfold convert_s3_http_to_s3_uri at h
    cases hp : match_path_style link with
    | some bk =>
      obtain ⟨bb, kk⟩ := bk
      rw [hp] at h
      exact ⟨bb, kk, match_path_style_bucket_ne_nil link bb kk hp, (Option.some.inj h).symm⟩
    | none =>
      rw [hp] at h
      cases hv : match_virtual_hosted_style link with
      | some bk =>
        obtain ⟨bb, kk⟩ := bk
        rw [hv] at h
        exact ⟨bb, kk, match_virtual_bucket_ne_nil link bb kk hv, (Option.some.inj h).symm⟩
      | none => rw [hv] at h; exact absurd h (by simp)

/-- Witness for C10 at the virtual-hosted example URL from the source's
docstring. -/
theorem C10_witness :
    ∃ bucket key, bucket ≠ [] ∧
      "s3://bucket-name/object-key".data = s3UriChars bucket key :=
  (C10_convert_s3_http_total ("https://bucket-name.s3.amazonaws.com/object-key".data)).2
    ("s3://bucket-name/object-key".data) (by decide)

end CZDT

